import Mathlib

/-!
Verification of the message-normalization core of
`semantic_kernel/connectors/ai/chat_completion_client_base.py`.

The normalizer `_prepare_chat_history_for_request` turns a `ChatHistory`
into a list of flat records (Python dicts).  Dicts are modelled as
association lists with pairwise-distinct keys (every dict built here has
distinct keys); dict item assignment is `setKey`, `dict.pop` is `popKey`,
key membership / indexing is `lookupKey`.  A Python `KeyError` is
modelled by returning `Except.error`.
-/

/-- Modelled from the spec: the role enum of `semantic_kernel.contents.chat_role`
(System | User | Assistant | Tool), whose source file is outside `src/`.
Roles serialize to their lowercase string values. -/
inductive ChatRole where
  | system
  | user
  | assistant
  | tool
deriving DecidableEq

/-- The string value a role serializes to under `model_dump`. -/
def ChatRole.toStr : ChatRole → String
  | .system => "system"
  | .user => "user"
  | .assistant => "assistant"
  | .tool => "tool"

/-- A value stored in a normalized record: a string, an integer (for
`choice_index`), or a nested string-to-string mapping (for a retained
`metadata` field). -/
inductive DumpValue where
  | str : String → DumpValue
  | nat : Nat → DumpValue
  | dict : List (String × String) → DumpValue
deriving DecidableEq

/-- A normalized record: a flat Python dict `String -> value`, modelled as an
association list with distinct keys. -/
abbrev Record := List (String × DumpValue)

/-- First-match association-list lookup: `k in d` / `d[k]` on a Python dict. -/
def lookupKey {β : Type} : List (String × β) → String → Option β
  | [], _ => none
  | (k', v) :: rest, k => if k' = k then some v else lookupKey rest k

/-- Dict item assignment `d[k] = v`: replace the binding of an existing key in
place, otherwise append the new binding at the end (Python dict insertion
order). -/
def setKey {β : Type} : List (String × β) → String → β → List (String × β)
  | [], k, v => [(k, v)]
  | (k', v') :: rest, k, v =>
    if k' = k then (k, v) :: rest else (k', v') :: setKey rest k v

/-- Dict key removal `d.pop(k, None)`.  Removes every binding of `k`; on the
distinct-key lists built here this is the removal of the single binding. -/
def popKey {β : Type} : List (String × β) → String → List (String × β)
  | [], _ => []
  | (k', v) :: rest, k =>
    if k' = k then popKey rest k else (k', v) :: popKey rest k

/-- Modelled from the spec: `ChatMessageContent` (spec section 3 "ChatMessage"),
whose source file is outside `src/`.  `role` is required; all other
attributes are optional.  `metadata` is a string-to-string mapping; for Tool
messages it is expected to carry `tool_call_id` and `function_name` keys. -/
structure ChatMessageContent where
  role : ChatRole
  content : Option String
  encoding : Option String
  ai_model_id : Option String
  inner_content : Option String
  choice_index : Option Nat
  metadata : Option (List (String × String))
deriving DecidableEq

/-- Modelled from the spec: `ChatHistory`, an ordered sequence of messages. -/
structure ChatHistory where
  messages : List ChatMessageContent
deriving DecidableEq

/-- The field table of a message: serialized field name paired with the
(optional) serialized value, in declaration order. -/
def dumpFields (m : ChatMessageContent) : List (String × Option DumpValue) :=
  [("role", some (DumpValue.str m.role.toStr)),
   ("content", m.content.map DumpValue.str),
   ("encoding", m.encoding.map DumpValue.str),
   ("ai_model_id", m.ai_model_id.map DumpValue.str),
   ("inner_content", m.inner_content.map DumpValue.str),
   ("choice_index", m.choice_index.map DumpValue.nat),
   ("metadata", m.metadata.map DumpValue.dict)]

/-- Keep the fields that are non-null and not in the exclusion list. -/
def dumpFilter : List (String × Option DumpValue) → List String → Record
  | [], _ => []
  | (_, none) :: rest, ex => dumpFilter rest ex
  | (k, some v) :: rest, ex =>
    if k ∈ ex then dumpFilter rest ex else (k, v) :: dumpFilter rest ex

/-- `message.model_dump(exclude_none=True, exclude=ex)`: the non-null fields
of the message, minus the excluded field names. -/
def model_dump (m : ChatMessageContent) (ex : List String) : Record :=
  dumpFilter (dumpFields m) ex

/-- The body of the per-message loop of `_prepare_chat_history_for_request`
(src lines 84-93).  For a Tool message: dump all non-null fields except
`encoding`; if the dump has a `metadata` key whose mapping has a
`tool_call_id` key, set `tool_call_id` and `name` from the metadata and pop
`metadata`.  The read `dump["metadata"]["function_name"]` raises `KeyError`
when the key is absent, modelled as `Except.error`.  For any other role:
dump all non-null fields except `metadata`, `encoding`, `ai_model_id`,
`inner_content`, `choice_index`. -/
def prepareMessage (message : ChatMessageContent) : Except String Record :=
  if message.role = ChatRole.tool then
    let dump := model_dump message ["encoding"]
    match lookupKey dump "metadata" with
    | some (DumpValue.dict md) =>
      match lookupKey md "tool_call_id" with
      | some tid =>
        match lookupKey md "function_name" with
        | some fn =>
          Except.ok
            (popKey
              (setKey (setKey dump "tool_call_id" (DumpValue.str tid))
                "name" (DumpValue.str fn))
              "metadata")
        | none => Except.error "KeyError: function_name"
      | none => Except.ok dump
    | _ => Except.ok dump
  else
    Except.ok
      (model_dump message
        ["metadata", "encoding", "ai_model_id", "inner_content", "choice_index"])

/-- The loop of `_prepare_chat_history_for_request`: one record appended per
message, in order; a raised `KeyError` aborts the whole call. -/
def prepareList : List ChatMessageContent → Except String (List Record)
  | [] => Except.ok []
  | m :: rest =>
    match prepareMessage m with
    | Except.error e => Except.error e
    | Except.ok r =>
      match prepareList rest with
      | Except.error e => Except.error e
      | Except.ok rs => Except.ok (r :: rs)

/-- `_prepare_chat_history_for_request` (the spec's `normalize`). -/
def prepare_chat_history_for_request (chat_history : ChatHistory) :
    Except String (List Record) :=
  prepareList chat_history.messages

/-- State-passing translation of the per-message loop body: every statement of
the source either reads the message (`message.role`, `message.model_dump`) or
writes the freshly created `dump` dict, so each branch returns the message it
received.  Used to make the absence of writes to the input visible. -/
def prepareMessageMut (message : ChatMessageContent) :
    ChatMessageContent × Except String Record :=
  if message.role = ChatRole.tool then
    let dump := model_dump message ["encoding"]
    match lookupKey dump "metadata" with
    | some (DumpValue.dict md) =>
      match lookupKey md "tool_call_id" with
      | some tid =>
        match lookupKey md "function_name" with
        | some fn =>
          (message,
            Except.ok
              (popKey
                (setKey (setKey dump "tool_call_id" (DumpValue.str tid))
                  "name" (DumpValue.str fn))
                "metadata"))
        | none => (message, Except.error "KeyError: function_name")
      | none => (message, Except.ok dump)
    | _ => (message, Except.ok dump)
  else
    (message,
      Except.ok
        (model_dump message
          ["metadata", "encoding", "ai_model_id", "inner_content",
            "choice_index"]))

/-- State-passing translation of the whole loop: threads every message through
`prepareMessageMut` and returns the (possibly mutated) message list next to
the result. -/
def prepareListMut :
    List ChatMessageContent → List ChatMessageContent × Except String (List Record)
  | [] => ([], Except.ok [])
  | m :: rest =>
    match prepareMessageMut m with
    | (m', Except.error e) => (m' :: rest, Except.error e)
    | (m', Except.ok r) =>
      match prepareListMut rest with
      | (rest', Except.error e) => (m' :: rest', Except.error e)
      | (rest', Except.ok rs) => (m' :: rest', Except.ok (r :: rs))

/-- State-passing `_prepare_chat_history_for_request`: returns the history as
left behind by the call next to the normal result. -/
def prepareMut (chat_history : ChatHistory) :
    ChatHistory × Except String (List Record) :=
  (⟨(prepareListMut chat_history.messages).1⟩,
    (prepareListMut chat_history.messages).2)

/-- The closed set of message-content classes relevant to the contract. -/
inductive MessageContentClass where
  | chatMessageContent
  | streamingChatMessageContent
deriving DecidableEq

/-- Modelled from the spec: the immutable configuration a
`ChatCompletionClientBase` instance holds via `AIServiceClientBase` (model id,
service id), whose source file is outside `src/`. -/
structure ChatCompletionClientBase where
  ai_model_id : String
  service_id : String

/-- `get_chat_message_content_class` (src lines 18-20): the inherited default,
returning `ChatMessageContent` for every instance. -/
def ChatCompletionClientBase.get_chat_message_content_class
    (_self : ChatCompletionClientBase) : MessageContentClass :=
  MessageContentClass.chatMessageContent

/-- The Tool message of the spec's scenario: content `"42"`, metadata
`{tool_call_id: "call_1", function_name: "add"}`, all other optional fields
null. -/
def toolMsg42 : ChatMessageContent :=
  { role := ChatRole.tool, content := some "42", encoding := none,
    ai_model_id := none, inner_content := none, choice_index := none,
    metadata := some [("tool_call_id", "call_1"), ("function_name", "add")] }

/-- A Tool message whose metadata has a `tool_call_id` key but no
`function_name` key. -/
def toolMsgNoFn : ChatMessageContent :=
  { role := ChatRole.tool, content := some "42", encoding := none,
    ai_model_id := none, inner_content := none, choice_index := none,
    metadata := some [("tool_call_id", "call_1")] }

/-- A one-message history whose Tool message carries metadata with
`tool_call_id` but without `function_name`. -/
def toolHistNoFn : ChatHistory :=
  ⟨[{ role := ChatRole.tool, content := none, encoding := none,
      ai_model_id := none, inner_content := none, choice_index := none,
      metadata := some [("tool_call_id", "x")] }]⟩

/-- A Tool message with complete tool metadata, used as a concrete witness
input. -/
def toolMsgAbcF : ChatMessageContent :=
  { role := ChatRole.tool, content := some "ok", encoding := none,
    ai_model_id := none, inner_content := none, choice_index := none,
    metadata := some [("tool_call_id", "abc"), ("function_name", "f")] }

/-- A Tool message whose metadata has neither `tool_call_id` nor
`function_name`. -/
def toolMsgOtherKey : ChatMessageContent :=
  { role := ChatRole.tool, content := some "7", encoding := none,
    ai_model_id := none, inner_content := none, choice_index := none,
    metadata := some [("other", "1")] }

/-- A User message with every optional field non-null. -/
def userMsgFull : ChatMessageContent :=
  { role := ChatRole.user, content := some "2+2?", encoding := some "utf-8",
    ai_model_id := some "gpt-4", inner_content := some "raw",
    choice_index := some 0, metadata := some [("usage", "high")] }

/-- A plain User message carrying only a role and content. -/
def userMsgPlain : ChatMessageContent :=
  { role := ChatRole.user, content := some "2+2?", encoding := none,
    ai_model_id := none, inner_content := none, choice_index := none,
    metadata := none }

/-- A plain System message carrying only a role and content. -/
def systemMsgTerse : ChatMessageContent :=
  { role := ChatRole.system, content := some "be terse", encoding := none,
    ai_model_id := none, inner_content := none, choice_index := none,
    metadata := none }

/-! Helper lemmas about the dict operations. -/

theorem lookupKey_setKey_self {β : Type} (l : List (String × β)) (k : String)
    (v : β) : lookupKey (setKey l k v) k = some v := by
  induction l with
  | nil => simp [setKey, lookupKey]
  | cons p rest ih =>
    obtain ⟨k', v'⟩ := p
    by_cases h : k' = k
    · simp [setKey, h, lookupKey]
    · simp [setKey, h, lookupKey, ih]

theorem lookupKey_setKey_ne {β : Type} (l : List (String × β)) (k k' : String)
    (v : β) (h : k ≠ k') : lookupKey (setKey l k v) k' = lookupKey l k' := by
  induction l with
  | nil => simp [setKey, lookupKey, h]
  | cons p rest ih =>
    obtain ⟨k0, v0⟩ := p
    by_cases h0 : k0 = k
    · simp [setKey, h0, lookupKey, h]
    · simp [setKey, h0, lookupKey, ih]

theorem lookupKey_popKey_self {β : Type} (l : List (String × β)) (k : String) :
    lookupKey (popKey l k) k = none := by
  induction l with
  | nil => rfl
  | cons p rest ih =>
    obtain ⟨k0, v0⟩ := p
    by_cases h0 : k0 = k
    · simp [popKey, h0, ih]
    · simp [popKey, h0, lookupKey, ih]

theorem lookupKey_popKey_ne {β : Type} (l : List (String × β)) (k k' : String)
    (h : k ≠ k') : lookupKey (popKey l k) k' = lookupKey l k' := by
  induction l with
  | nil => rfl
  | cons p rest ih =>
    obtain ⟨k0, v0⟩ := p
    by_cases h0 : k0 = k
    · simp [popKey, h0, lookupKey, h, ih]
    · simp [popKey, h0, lookupKey, ih]

/-! Helper lemmas about the shape of `model_dump` results. -/

theorem lookupKey_dump_enc_metadata (m : ChatMessageContent) :
    lookupKey (model_dump m ["encoding"]) "metadata"
      = m.metadata.map DumpValue.dict := by
  obtain ⟨role, content, encoding, ai, inner, choice, meta⟩ := m
  cases content <;> cases encoding <;> cases ai <;> cases inner <;>
    cases choice <;> cases meta <;> rfl

theorem lookupKey_dump_enc_role (m : ChatMessageContent) :
    lookupKey (model_dump m ["encoding"]) "role"
      = some (DumpValue.str m.role.toStr) := by
  obtain ⟨role, content, encoding, ai, inner, choice, meta⟩ := m
  cases content <;> cases encoding <;> cases ai <;> cases inner <;>
    cases choice <;> cases meta <;> rfl

theorem model_dump_nontool_shape (m : ChatMessageContent) :
    model_dump m
        ["metadata", "encoding", "ai_model_id", "inner_content", "choice_index"]
      = ("role", DumpValue.str m.role.toStr)
          :: (match m.content with
              | none => []
              | some s => [("content", DumpValue.str s)]) := by
  obtain ⟨role, content, encoding, ai, inner, choice, meta⟩ := m
  cases content <;> cases encoding <;> cases ai <;> cases inner <;>
    cases choice <;> cases meta <;> rfl

theorem lookupKey_dump_nontool_role (m : ChatMessageContent) :
    lookupKey
        (model_dump m
          ["metadata", "encoding", "ai_model_id", "inner_content",
            "choice_index"])
        "role"
      = some (DumpValue.str m.role.toStr) := by
  rw [model_dump_nontool_shape]
  cases m.content <;> rfl

/-! Characterization of the four branches of `prepareMessage`. -/

theorem prepareMessage_nontool (m : ChatMessageContent)
    (h : m.role ≠ ChatRole.tool) :
    prepareMessage m
      = Except.ok
          (model_dump m
            ["metadata", "encoding", "ai_model_id", "inner_content",
              "choice_index"]) := by
  simp [prepareMessage, h]

theorem prepareMessage_tool_fallback (m : ChatMessageContent)
    (hrole : m.role = ChatRole.tool)
    (h : m.metadata = none ∨
      ∃ md, m.metadata = some md ∧ lookupKey md "tool_call_id" = none) :
    prepareMessage m = Except.ok (model_dump m ["encoding"]) := by
  rcases h with hmd | ⟨md, hmd, htid⟩
  · simp [prepareMessage, hrole, lookupKey_dump_enc_metadata, hmd]
  · simp [prepareMessage, hrole, lookupKey_dump_enc_metadata, hmd, htid]

theorem prepareMessage_tool_promote (m : ChatMessageContent)
    (md : List (String × String)) (tid fn : String)
    (hrole : m.role = ChatRole.tool) (hmd : m.metadata = some md)
    (htid : lookupKey md "tool_call_id" = some tid)
    (hfn : lookupKey md "function_name" = some fn) :
    prepareMessage m
      = Except.ok
          (popKey
            (setKey
              (setKey (model_dump m ["encoding"]) "tool_call_id"
                (DumpValue.str tid))
              "name" (DumpValue.str fn))
            "metadata") := by
  simp [prepareMessage, hrole, lookupKey_dump_enc_metadata, hmd, htid, hfn]

theorem prepareMessage_tool_keyerror (m : ChatMessageContent)
    (md : List (String × String)) (tid : String)
    (hrole : m.role = ChatRole.tool) (hmd : m.metadata = some md)
    (htid : lookupKey md "tool_call_id" = some tid)
    (hfn : lookupKey md "function_name" = none) :
    prepareMessage m = Except.error "KeyError: function_name" := by
  simp [prepareMessage, hrole, lookupKey_dump_enc_metadata, hmd, htid, hfn]

/-! The state-passing translation returns its input unchanged and computes the
same result as the direct translation. -/

theorem prepareMessageMut_eq (m : ChatMessageContent) :
    prepareMessageMut m = (m, prepareMessage m) := by
  by_cases h : m.role = ChatRole.tool
  · simp only [prepareMessageMut, prepareMessage, h, if_true, if_pos]
    cases hm : lookupKey (model_dump m ["encoding"]) "metadata" with
    | none => rfl
    | some dv =>
      cases dv with
      | str s => rfl
      | nat n => rfl
      | dict md =>
        cases htid : lookupKey md "tool_call_id" with
        | none => simp [htid]
        | some tid =>
          cases hfn : lookupKey md "function_name" with
          | none => simp [htid, hfn]
          | some fn => simp [htid, hfn]
  · simp only [prepareMessageMut, prepareMessage, h, if_false, if_neg,
      not_false_iff]

theorem prepareListMut_eq (ms : List ChatMessageContent) :
    prepareListMut ms = (ms, prepareList ms) := by
  induction ms with
  | nil => rfl
  | cons m rest ih =>
    cases hm : prepareMessage m with
    | error e =>
      simp [prepareListMut, prepareList, prepareMessageMut_eq, hm]
    | ok r =>
      cases hr : prepareList rest with
      | error e =>
        simp [prepareListMut, prepareList, prepareMessageMut_eq, hm, ih, hr]
      | ok rs =>
        simp [prepareListMut, prepareList, prepareMessageMut_eq, hm, ih, hr]

/-- Length and per-index characterization of a successful `prepareList` run:
one record per message, in order. -/
theorem prepareList_spec (ms : List ChatMessageContent) (rs : List Record)
    (h : prepareList ms = Except.ok rs) :
    rs.length = ms.length ∧
      ∀ i (hi : i < rs.length) (hj : i < ms.length),
        prepareMessage (ms.get ⟨i, hj⟩) = Except.ok (rs.get ⟨i, hi⟩) := by
  induction ms generalizing rs with
  | nil =>
    simp only [prepareList] at h
    cases h
    exact ⟨rfl, fun i hi => absurd hi (Nat.not_lt_zero i)⟩
  | cons m rest ih =>
    cases hm : prepareMessage m with
    | error e =>
      simp [prepareList, hm] at h
    | ok r =>
      cases hrest : prepareList rest with
      | error e =>
        simp [prepareList, hm, hrest] at h
      | ok rs' =>
        simp only [prepareList, hm, hrest] at h
        cases h
        obtain ⟨hlen, hidx⟩ := ih rs' hrest
        refine ⟨by simp [hlen], ?_⟩
        intro i hi hj
        cases i with
        | zero => simpa using hm
        | succ n =>
          simpa using hidx n (by simpa using hi) (by simpa using hj)

/-! Claim theorems. -/

/-- Claim C1, counterexample: `toolMsgNoFn` is a Tool message whose non-null
dump (excluding `encoding`) contains a `metadata` field with a `tool_call_id`
key, yet the normalizer raises `KeyError` on the `function_name` read instead
of producing a record. -/
theorem tool_metadata_promotion_counterexample :
    toolMsgNoFn.role = ChatRole.tool ∧
    lookupKey (model_dump toolMsgNoFn ["encoding"]) "metadata"
      = some (DumpValue.dict [("tool_call_id", "call_1")]) ∧
    lookupKey [("tool_call_id", "call_1")] "tool_call_id" = some "call_1" ∧
    prepareMessage toolMsgNoFn = Except.error "KeyError: function_name" :=
  ⟨rfl, rfl, rfl, rfl⟩

/-- Claim C1, amended: for every Tool message whose metadata has a
`tool_call_id` key and a `function_name` key, the normalized record has
`tool_call_id` equal to `metadata.tool_call_id`, `name` equal to
`metadata.function_name`, and no `metadata` key. -/
theorem tool_metadata_promotion (m : ChatMessageContent)
    (md : List (String × String)) (tid fn : String)
    (hrole : m.role = ChatRole.tool) (hmd : m.metadata = some md)
    (htid : lookupKey md "tool_call_id" = some tid)
    (hfn : lookupKey md "function_name" = some fn) :
    ∃ r, prepareMessage m = Except.ok r ∧
      lookupKey r "tool_call_id" = some (DumpValue.str tid) ∧
      lookupKey r "name" = some (DumpValue.str fn) ∧
      lookupKey r "metadata" = none := by
  refine ⟨_, prepareMessage_tool_promote m md tid fn hrole hmd htid hfn,
    ?_, ?_, ?_⟩
  · rw [lookupKey_popKey_ne _ "metadata" "tool_call_id" (by decide),
      lookupKey_setKey_ne _ "name" "tool_call_id" _ (by decide)]
    exact lookupKey_setKey_self _ _ _
  · rw [lookupKey_popKey_ne _ "metadata" "name" (by decide)]
    exact lookupKey_setKey_self _ _ _
  · exact lookupKey_popKey_self _ _

/-- Claim C1, witness: the amended theorem applied to `toolMsgAbcF`. -/
theorem tool_metadata_promotion_witness :
    ∃ r, prepareMessage toolMsgAbcF = Except.ok r ∧
      lookupKey r "tool_call_id" = some (DumpValue.str "abc") ∧
      lookupKey r "name" = some (DumpValue.str "f") ∧
      lookupKey r "metadata" = none :=
  tool_metadata_promotion toolMsgAbcF
    [("tool_call_id", "abc"), ("function_name", "f")] "abc" "f"
    rfl rfl rfl rfl

/-- Claim C2: for every System, User or Assistant message, the normalized
record contains none of `metadata`, `encoding`, `ai_model_id`,
`inner_content`, `choice_index`, and omits `content` when it is null. -/
theorem nontool_record_exclusions (m : ChatMessageContent)
    (h : m.role = ChatRole.system ∨ m.role = ChatRole.user ∨
      m.role = ChatRole.assistant) :
    ∃ r, prepareMessage m = Except.ok r ∧
      lookupKey r "metadata" = none ∧
      lookupKey r "encoding" = none ∧
      lookupKey r "ai_model_id" = none ∧
      lookupKey r "inner_content" = none ∧
      lookupKey r "choice_index" = none ∧
      (m.content = none → lookupKey r "content" = none) := by
  have hne : m.role ≠ ChatRole.tool := by
    rcases h with h | h | h <;> simp [h]
  refine ⟨_, prepareMessage_nontool m hne, ?_⟩
  rw [model_dump_nontool_shape]
  cases hc : m.content with
  | none => exact ⟨rfl, rfl, rfl, rfl, rfl, fun _ => rfl⟩
  | some s => exact ⟨rfl, rfl, rfl, rfl, rfl, fun hcon => nomatch hcon⟩

/-- Claim C2, witness: the theorem applied to `userMsgFull`, whose excluded
fields are all non-null. -/
theorem nontool_record_exclusions_witness :
    ∃ r, prepareMessage userMsgFull = Except.ok r ∧
      lookupKey r "metadata" = none ∧
      lookupKey r "encoding" = none ∧
      lookupKey r "ai_model_id" = none ∧
      lookupKey r "inner_content" = none ∧
      lookupKey r "choice_index" = none ∧
      (userMsgFull.content = none → lookupKey r "content" = none) :=
  nontool_record_exclusions userMsgFull (Or.inr (Or.inl rfl))

/-- Claim C3: the empty history normalizes to the empty sequence without
error, and every successful run yields exactly one record per message with
the record at index `i` produced from the message at index `i`. -/
theorem normalize_order_preservation :
    prepare_chat_history_for_request ⟨[]⟩ = Except.ok [] ∧
    ∀ (H : ChatHistory) (rs : List Record),
      prepare_chat_history_for_request H = Except.ok rs →
      rs.length = H.messages.length ∧
      ∀ i (hi : i < rs.length) (hj : i < H.messages.length),
        prepareMessage (H.messages.get ⟨i, hj⟩) = Except.ok (rs.get ⟨i, hi⟩) :=
  ⟨rfl, fun H rs h => prepareList_spec H.messages rs h⟩

/-- Claim C3, witness: the theorem applied to the one-message history
`⟨[userMsgPlain]⟩` and its concrete output. -/
theorem normalize_order_preservation_witness :
    ([[("role", DumpValue.str "user"), ("content", DumpValue.str "2+2?")]] :
        List Record).length
      = (ChatHistory.mk [userMsgPlain]).messages.length :=
  (normalize_order_preservation.2 ⟨[userMsgPlain]⟩
    [[("role", DumpValue.str "user"), ("content", DumpValue.str "2+2?")]]
    rfl).1

/-- Claim C4: a Tool message whose metadata is absent or lacks `tool_call_id`
normalizes, without raising, to the non-null dump excluding only `encoding`,
in which any metadata field is retained unmodified. -/
theorem tool_metadata_fallback (m : ChatMessageContent)
    (hrole : m.role = ChatRole.tool)
    (h : m.metadata = none ∨
      ∃ md, m.metadata = some md ∧ lookupKey md "tool_call_id" = none) :
    prepareMessage m = Except.ok (model_dump m ["encoding"]) ∧
    lookupKey (model_dump m ["encoding"]) "metadata"
      = m.metadata.map DumpValue.dict :=
  ⟨prepareMessage_tool_fallback m hrole h, lookupKey_dump_enc_metadata m⟩

/-- Claim C4, witness: the theorem applied to `toolMsgOtherKey`, whose
metadata lacks `tool_call_id`. -/
theorem tool_metadata_fallback_witness :
    prepareMessage toolMsgOtherKey
      = Except.ok (model_dump toolMsgOtherKey ["encoding"]) ∧
    lookupKey (model_dump toolMsgOtherKey ["encoding"]) "metadata"
      = toolMsgOtherKey.metadata.map DumpValue.dict :=
  tool_metadata_fallback toolMsgOtherKey rfl
    (Or.inr ⟨[("other", "1")], rfl, rfl⟩)

/-- Claim C5, counterexample: `toolHistNoFn` carries only valid roles, yet
normalizing it raises `KeyError` because its Tool message's metadata has
`tool_call_id` but no `function_name`. -/
theorem normalize_raise_counterexample :
    prepare_chat_history_for_request toolHistNoFn
      = Except.error "KeyError: function_name" :=
  rfl

/-- Every history whose Tool-message metadata never pairs a `tool_call_id`
key with a missing `function_name` key normalizes successfully. -/
theorem prepareList_ok_of_wellformed (ms : List ChatMessageContent)
    (h : ∀ m ∈ ms, m.role = ChatRole.tool →
      ∀ md, m.metadata = some md →
        ∀ tid, lookupKey md "tool_call_id" = some tid →
          ∃ fn, lookupKey md "function_name" = some fn) :
    ∃ rs, prepareList ms = Except.ok rs := by
  induction ms with
  | nil => exact ⟨[], rfl⟩
  | cons m rest ih =>
    have hm : ∃ r, prepareMessage m = Except.ok r := by
      by_cases hrole : m.role = ChatRole.tool
      · cases hmd : m.metadata with
        | none => exact ⟨_, prepareMessage_tool_fallback m hrole (Or.inl hmd)⟩
        | some md =>
          cases htid : lookupKey md "tool_call_id" with
          | none =>
            exact ⟨_,
              prepareMessage_tool_fallback m hrole (Or.inr ⟨md, hmd, htid⟩)⟩
          | some tid =>
            obtain ⟨fn, hfn⟩ :=
              h m (List.mem_cons_self m rest) hrole md hmd tid htid
            exact ⟨_,
              prepareMessage_tool_promote m md tid fn hrole hmd htid hfn⟩
      · exact ⟨_, prepareMessage_nontool m hrole⟩
    obtain ⟨r, hr⟩ := hm
    obtain ⟨rs, hrs⟩ := ih fun m' hm' => h m' (List.mem_cons_of_mem m hm')
    exact ⟨r :: rs, by simp [prepareList, hr, hrs]⟩

/-- Claim C5, amended: the normalizer never raises for histories with valid
roles, except when a Tool message's metadata contains `tool_call_id` but
lacks `function_name`, where the promotion's `function_name` read raises
`KeyError`. -/
theorem normalize_no_raise_amended (H : ChatHistory)
    (h : ∀ m ∈ H.messages, m.role = ChatRole.tool →
      ∀ md, m.metadata = some md →
        ∀ tid, lookupKey md "tool_call_id" = some tid →
          ∃ fn, lookupKey md "function_name" = some fn) :
    ∃ rs, prepare_chat_history_for_request H = Except.ok rs :=
  prepareList_ok_of_wellformed H.messages h

/-- Claim C5, witness: the amended theorem applied to the one-message history
`⟨[userMsgPlain]⟩`. -/
theorem normalize_no_raise_amended_witness :
    ∃ rs, prepare_chat_history_for_request ⟨[userMsgPlain]⟩ = Except.ok rs :=
  normalize_no_raise_amended ⟨[userMsgPlain]⟩ (by
    intro m hm hrole md hmd tid htid
    rw [List.mem_singleton] at hm
    subst hm
    exact absurd hrole (by decide))

/-- Claim C6, counterexample: the scenario's Tool message normalizes to a
record that also carries a `role` key, so the record does not consist of
exactly the three keys `content`, `tool_call_id`, `name`. -/
theorem tool_scenario_counterexample :
    prepareMessage toolMsg42
      = Except.ok
          [("role", DumpValue.str "tool"), ("content", DumpValue.str "42"),
            ("tool_call_id", DumpValue.str "call_1"),
            ("name", DumpValue.str "add")] ∧
    lookupKey
        [("role", DumpValue.str "tool"), ("content", DumpValue.str "42"),
          ("tool_call_id", DumpValue.str "call_1"),
          ("name", DumpValue.str "add")] "role"
      = some (DumpValue.str "tool") :=
  ⟨rfl, rfl⟩

/-- Claim C6, amended: the Tool message with content `"42"` and metadata
`{tool_call_id: "call_1", function_name: "add"}` normalizes to the record
`{role: "tool", content: "42", tool_call_id: "call_1", name: "add"}` —
exactly those four keys and values. -/
theorem tool_scenario_amended :
    prepare_chat_history_for_request ⟨[toolMsg42]⟩
      = Except.ok
          [[("role", DumpValue.str "tool"), ("content", DumpValue.str "42"),
            ("tool_call_id", DumpValue.str "call_1"),
            ("name", DumpValue.str "add")]] :=
  rfl

/-- Claim C7: the normalizer is deterministic — repeated calls on the same
history return equal results, the function having no hidden state. -/
theorem normalize_deterministic :
    ∀ H : ChatHistory,
      prepare_chat_history_for_request H = prepare_chat_history_for_request H :=
  fun _ => rfl

/-- Claim C8: the state-passing translation of the normalizer returns the
input history unchanged next to the usual result — the source writes only to
the per-message `dump` dict and its own output list, never to the history or
a message. -/
theorem normalize_no_mutation :
    ∀ H : ChatHistory,
      prepareMut H = (H, prepare_chat_history_for_request H) := by
  intro H
  obtain ⟨ms⟩ := H
  simp [prepareMut, prepare_chat_history_for_request, prepareListMut_eq]

/-- Claim C9: the inherited default of `get_chat_message_content_class`
returns the base `ChatMessageContent` class for every client instance. -/
theorem default_message_content_class :
    ∀ c : ChatCompletionClientBase,
      c.get_chat_message_content_class
        = MessageContentClass.chatMessageContent :=
  fun _ => rfl

/-- Claim C10: every record produced by the normalizer contains a `role` key,
holding the message's serialized role — the Tool branch excludes only
`encoding` and the promotion never touches `role`, while the non-Tool branch
does not exclude `role`. -/
theorem record_contains_role (m : ChatMessageContent) (r : Record)
    (h : prepareMessage m = Except.ok r) :
    lookupKey r "role" = some (DumpValue.str m.role.toStr) := by
  by_cases hrole : m.role = ChatRole.tool
  · cases hmd : m.metadata with
    | none =>
      rw [prepareMessage_tool_fallback m hrole (Or.inl hmd)] at h
      cases h
      exact lookupKey_dump_enc_role m
    | some md =>
      cases htid : lookupKey md "tool_call_id" with
      | none =>
        rw [prepareMessage_tool_fallback m hrole (Or.inr ⟨md, hmd, htid⟩)] at h
        cases h
        exact lookupKey_dump_enc_role m
      | some tid =>
        cases hfn : lookupKey md "function_name" with
        | none =>
          rw [prepareMessage_tool_keyerror m md tid hrole hmd htid hfn] at h
          cases h
        | some fn =>
          rw [prepareMessage_tool_promote m md tid fn hrole hmd htid hfn] at h
          cases h
          rw [lookupKey_popKey_ne _ "metadata" "role" (by decide),
            lookupKey_setKey_ne _ "name" "role" _ (by decide),
            lookupKey_setKey_ne _ "tool_call_id" "role" _ (by decide)]
          exact lookupKey_dump_enc_role m
  · rw [prepareMessage_nontool m hrole] at h
    cases h
    exact lookupKey_dump_nontool_role m

/-- Claim C10, witness: the theorem applied to `systemMsgTerse` and its
concrete record. -/
theorem record_contains_role_witness :
    lookupKey
        [("role", DumpValue.str "system"),
          ("content", DumpValue.str "be terse")] "role"
      = some (DumpValue.str "system") :=
  record_contains_role systemMsgTerse
    [("role", DumpValue.str "system"), ("content", DumpValue.str "be terse")]
    rfl
